import Mathlib

/-!
Shallow embedding of the deterministic risk classifier in `lib/classifier.ts`
of the Event-Intelligence-Program repository, together with theorems checking
the specification's claims about it.

Modelling conventions: JavaScript numbers are modelled as `ℚ` (every quantity
the classifier computes before rounding is exact in binary floating point at
the granularity the claims use, and every rounded quantity is an integer,
modelled as `ℤ`); `Math.round` is round-half-up, i.e. `⌊x + 1/2⌋`;
`String.prototype.includes` is substring containment on the code-unit list;
the `Partial<Record<RiskCategory, string[]>>` built by `matchKeywords` is an
association list in key-insertion order, which is the iteration order of
`Object.entries` used by `pickCategory`; the `counts` record of
`classifyArticles` is likewise iterated in its literal key order.
-/

namespace Classifier

/-- The closed risk-category enumeration of `lib/classifier.ts`. -/
inductive RiskCategory where
  | Geopolitical
  | Monetary
  | Commodity
  | SupplyChain
  | General
deriving DecidableEq, Repr

/-- The closed impact-level enumeration. -/
inductive ImpactLevel where
  | LOW
  | MEDIUM
  | HIGH
deriving DecidableEq, Repr

open RiskCategory ImpactLevel

/-- Key order of the `KEYWORDS` / `CATEGORY_WEIGHT` object literals: the order
`Object.entries` enumerates the categories in. -/
def categoryOrder : List RiskCategory :=
  [Geopolitical, Monetary, Commodity, SupplyChain, General]

/-- Keyword dictionary `KEYWORDS` of `lib/classifier.ts`. -/
def KEYWORDS : RiskCategory → List String
  | Geopolitical =>
      ["war", "conflict", "sanction", "geopolitic", "military", "coup",
       "invasion", "nuclear", "treaty", "nato", "terrorism", "ceasefire",
       "troops", "missile", "airstrike", "alliance", "diplomatic crisis",
       "political instability", "rebel", "insurgency", "annexation"]
  | Monetary =>
      ["inflation", "interest rate", "central bank", "federal reserve",
       "fed rate", "ecb", "monetary policy", "rate hike", "rate cut",
       "quantitative easing", "currency", "deflation", "stagflation",
       "bond yield", "treasury", "repo rate", "liquidity"]
  | Commodity =>
      ["oil", "gold", "commodity", "energy", "crude oil", "brent",
       "opec", "fuel", "copper", "wheat", "food price", "grain",
       "natural gas", "lng", "rare earth", "silver", "coffee"]
  | SupplyChain =>
      ["supply chain", "logistics", "shortage", "disruption", "trade war",
       "tariff", "import ban", "export ban", "shipping", "port",
       "semiconductor", "chip shortage", "freight", "factory shutdown",
       "manufacturing", "inventory", "bottleneck"]
  | General => []

/-- Base weight per category, constant `CATEGORY_WEIGHT`. -/
def CATEGORY_WEIGHT : RiskCategory → ℚ
  | Geopolitical => 1
  | Monetary => 9/10
  | Commodity => 8/10
  | SupplyChain => 7/10
  | General => 3/10

/-- One entry of the `SEVERITY_TIERS` array. -/
structure SeverityTier where
  boost : ℚ
  words : List String
deriving DecidableEq, Repr

/-- First severity tier (boost 40). -/
def tier1 : SeverityTier :=
  ⟨40, ["war", "crash", "collapse", "invasion", "nuclear", "catastrophic",
        "emergency", "meltdown", "default", "hyperinflation", "famine"]⟩

/-- Second severity tier (boost 25). -/
def tier2 : SeverityTier :=
  ⟨25, ["surge", "spike", "sanction", "recession", "shock", "escalation",
        "plunge", "ban", "freeze", "blockade", "halt"]⟩

/-- Third severity tier (boost 12). -/
def tier3 : SeverityTier :=
  ⟨12, ["rise", "increase", "concern", "tension", "risk", "volatile",
        "warning", "threat", "instability", "downgrade", "slowdown"]⟩

/-- The ordered `SEVERITY_TIERS` array. -/
def SEVERITY_TIERS : List SeverityTier := [tier1, tier2, tier3]

/-- Constant `BASELINE_BOOST`. -/
def BASELINE_BOOST : ℚ := 5

/-- Helper `lc`: per-character lower-casing, the behaviour of
`toLowerCase()` on the ASCII alphabet all keyword dictionaries use. -/
def lc (text : String) : String := String.mk (text.data.map Char.toLower)

/-- Substring containment on character lists: does the first list contain the
second as a contiguous sublist?  Models `String.prototype.includes`. -/
def containsSub : List Char → List Char → Bool
  | [], needle => needle.isEmpty
  | h :: t, needle => needle.isPrefixOf (h :: t) || containsSub t needle

/-- The JavaScript expression `hay.includes (w)` for strings. -/
def includes (hay w : String) : Bool := containsSub hay.toList w.toList

/-- Function `matchKeywords` of `lib/classifier.ts`: for each category, the
keywords occurring in the lower-cased text, categories with no match omitted.
The result list is in key-insertion order. -/
def matchKeywords (text : String) : List (RiskCategory × List String) :=
  let lower := lc text
  categoryOrder.filterMap fun cat =>
    let matched := (KEYWORDS cat).filter fun w => includes lower w
    if matched.isEmpty then none else some (cat, matched)

/-- Function `pickCategory` of `lib/classifier.ts`: best-scoring category of
the match mapping, starting from `best = General`, `bestScore = -1`. -/
def pickCategory (ms : List (RiskCategory × List String)) : RiskCategory :=
  (ms.foldl
    (fun (best : RiskCategory × ℚ) p =>
      let score : ℚ := (p.2.length : ℚ) * CATEGORY_WEIGHT p.1
      if best.2 < score then (p.1, score) else best)
    (General, -1)).1

/-- Function `severityBoost` of `lib/classifier.ts`: boost of the first tier
with a keyword occurring in the lower-cased text, else the baseline. -/
def severityBoost (text : String) : ℚ :=
  let lower := lc text
  match SEVERITY_TIERS.find? (fun tier => tier.words.any fun w => includes lower w) with
  | some tier => tier.boost
  | none => BASELINE_BOOST

/-- Function `clamp` of `lib/classifier.ts` (used only on rounded values). -/
def clamp (value lo hi : ℤ) : ℤ := max lo (min hi value)

/-- JavaScript `Math.round`: round half toward positive infinity. -/
def jsRound (x : ℚ) : ℤ := ⌊x + 1/2⌋

/-- Function `scoreArticle` of `lib/classifier.ts`. -/
def scoreArticle (category : RiskCategory) (text : String) : ℤ :=
  let base := CATEGORY_WEIGHT category * 60
  let boost := severityBoost text
  clamp (jsRound (base + boost)) 0 100

/-- Function `toImpactLevel` of `lib/classifier.ts`. -/
def toImpactLevel (score : ℤ) : ImpactLevel :=
  if score ≤ 30 then LOW else if score ≤ 70 then MEDIUM else HIGH

/-- The `source` field of a raw article: `{ name: string } | string`. -/
inductive ArticleSource where
  | named (name : String)
  | plain (s : String)
deriving DecidableEq, Repr

/-- Interface `RawArticle` (a `null` description is `none`). -/
structure RawArticle where
  title : String
  description : Option String
  source : ArticleSource
  url : String
  publishedAt : String
deriving DecidableEq, Repr

/-- Interface `ClassifiedArticle`; `keywordMatches` is the association list
produced by `matchKeywords`. -/
structure ClassifiedArticle where
  title : String
  description : String
  source : String
  url : String
  publishedAt : String
  riskCategory : RiskCategory
  articleScore : ℤ
  keywordMatches : List (RiskCategory × List String)
deriving DecidableEq, Repr

/-- Interface `CategoryBreakdown` (integer percentages). -/
structure CategoryBreakdown where
  Geopolitical : ℤ
  Monetary : ℤ
  Commodity : ℤ
  SupplyChain : ℤ
  General : ℤ
deriving DecidableEq, Repr

/-- Interface `AssessmentResult`. -/
structure AssessmentResult where
  overallScore : ℤ
  impactLevel : ImpactLevel
  dominantCategory : RiskCategory
  categoryBreakdown : CategoryBreakdown
  articles : List ClassifiedArticle
deriving DecidableEq, Repr

/-- The combined text of step 1 of `classifyArticles`:
`title + " " + (description ?? "")`. -/
def combinedText (a : RawArticle) : String := a.title ++ " " ++ a.description.getD ""

/-- The `sourceName` computation of step 1 of `classifyArticles`. -/
def sourceName (a : RawArticle) : String :=
  match a.source with
  | .plain s => s
  | .named n => n

/-- The per-article classification (the body of the `map` in step 1 of
`classifyArticles`). -/
def classifyOne (a : RawArticle) : ClassifiedArticle :=
  let text := combinedText a
  let ms := matchKeywords text
  let category := pickCategory ms
  let score := scoreArticle category text
  { title := a.title
    description := a.description.getD ""
    source := sourceName a
    url := a.url
    publishedAt := a.publishedAt
    riskCategory := category
    articleScore := score
    keywordMatches := ms }

/-- Step 2 accumulators of `classifyArticles`: `(weightedSum, totalWeight)`. -/
def weightTotals (classified : List ClassifiedArticle) : ℚ × ℚ :=
  classified.foldl
    (fun acc a =>
      let w := CATEGORY_WEIGHT a.riskCategory
      (acc.1 + (a.articleScore : ℚ) * w, acc.2 + w))
    (0, 0)

/-- Step 2 of `classifyArticles`: the weighted aggregate score, with the
division-by-zero case short-circuited to 0. -/
def overallScoreOf (classified : List ClassifiedArticle) : ℤ :=
  let acc := weightTotals classified
  if 0 < acc.2 then clamp (jsRound (acc.1 / acc.2)) 0 100 else 0

/-- The per-category count accumulated by the `counts` loop of step 3. -/
def countCat (classified : List ClassifiedArticle) (c : RiskCategory) : ℕ :=
  classified.countP fun a => decide (a.riskCategory = c)

/-- The denominator `classified.length || 1` of step 3. -/
def totalOf (classified : List ClassifiedArticle) : ℕ :=
  if classified.length = 0 then 1 else classified.length

/-- Step 3 of `classifyArticles`: the category breakdown percentages. -/
def breakdownOf (classified : List ClassifiedArticle) : CategoryBreakdown :=
  let total := totalOf classified
  { Geopolitical := jsRound ((countCat classified Geopolitical : ℚ) / (total : ℚ) * 100)
    Monetary := jsRound ((countCat classified Monetary : ℚ) / (total : ℚ) * 100)
    Commodity := jsRound ((countCat classified Commodity : ℚ) / (total : ℚ) * 100)
    SupplyChain := jsRound ((countCat classified SupplyChain : ℚ) / (total : ℚ) * 100)
    General := jsRound ((countCat classified General : ℚ) / (total : ℚ) * 100) }

/-- Step 4 of `classifyArticles`: the dominant category, a fold over the
`counts` record in its literal key order, starting from
`dominant = General`, `domScore = -1`. -/
def dominantOf (classified : List ClassifiedArticle) : RiskCategory :=
  (categoryOrder.foldl
    (fun (best : RiskCategory × ℚ) cat =>
      let s : ℚ := (countCat classified cat : ℚ) * CATEGORY_WEIGHT cat
      if best.2 < s then (cat, s) else best)
    (General, -1)).1

/-- Function `classifyArticles` of `lib/classifier.ts`. -/
def classifyArticles (rawArticles : List RawArticle) : AssessmentResult :=
  let classified := rawArticles.map classifyOne
  { overallScore := overallScoreOf classified
    impactLevel := toImpactLevel (overallScoreOf classified)
    dominantCategory := dominantOf classified
    categoryBreakdown := breakdownOf classified
    articles := classified }

/-- The common shape of the two best-so-far folds (`pickCategory` and the
dominant-category loop): keep the new pair exactly when its score strictly
exceeds the best score so far. -/
def selStep (best p : RiskCategory × ℚ) : RiskCategory × ℚ :=
  if best.2 < p.2 then p else best

/-- Per-entry score used by `pickCategory`: match count times base weight. -/
def pickScore (p : RiskCategory × List String) : ℚ :=
  (p.2.length : ℚ) * CATEGORY_WEIGHT p.1

/-- Per-category score used by the dominant-category loop: article count
times base weight. -/
def dominantScore (classified : List ClassifiedArticle) (c : RiskCategory) : ℚ :=
  (countCat classified c : ℚ) * CATEGORY_WEIGHT c

/-- Sum of the five breakdown percentages. -/
def breakdownSum (b : CategoryBreakdown) : ℤ :=
  b.Geopolitical + b.Monetary + b.Commodity + b.SupplyChain + b.General

/-- A sample article whose text contains a severity keyword ("crash") but no
category keyword. -/
def crashArticle : RawArticle :=
  ⟨"crash", none, ArticleSource.plain "Reuters", "https://example.com/a", "2026-01-01"⟩

/-- A sample article whose text contains no category keyword and no severity
keyword. -/
def blandArticle : RawArticle :=
  ⟨"hello", none, ArticleSource.plain "Reuters", "https://example.com/b", "2026-01-02"⟩

/-- A sample article whose text contains the category keyword "war". -/
def warArticle : RawArticle :=
  ⟨"war", none, ArticleSource.plain "Reuters", "https://example.com/c", "2026-01-03"⟩

/-- A one-entry match mapping, used to exhibit `pickCategory` on a concrete
non-empty input. -/
def singleMatch : List (RiskCategory × List String) :=
  [(RiskCategory.Geopolitical, ["war"])]

/-- Statement of the category-breakdown property at one input list: every
breakdown percentage is the rounded percentage of the per-category article
count over the input length, and the five percentages sum to 100 within a
drift of 4. -/
def breakdownClaimAt (raws : List RawArticle) : Prop :=
  ((classifyArticles raws).categoryBreakdown.Geopolitical
      = jsRound ((countCat (classifyArticles raws).articles RiskCategory.Geopolitical : ℚ)
          / (raws.length : ℚ) * 100))
  ∧ ((classifyArticles raws).categoryBreakdown.Monetary
      = jsRound ((countCat (classifyArticles raws).articles RiskCategory.Monetary : ℚ)
          / (raws.length : ℚ) * 100))
  ∧ ((classifyArticles raws).categoryBreakdown.Commodity
      = jsRound ((countCat (classifyArticles raws).articles RiskCategory.Commodity : ℚ)
          / (raws.length : ℚ) * 100))
  ∧ ((classifyArticles raws).categoryBreakdown.SupplyChain
      = jsRound ((countCat (classifyArticles raws).articles RiskCategory.SupplyChain : ℚ)
          / (raws.length : ℚ) * 100))
  ∧ ((classifyArticles raws).categoryBreakdown.General
      = jsRound ((countCat (classifyArticles raws).articles RiskCategory.General : ℚ)
          / (raws.length : ℚ) * 100))
  ∧ |breakdownSum (classifyArticles raws).categoryBreakdown - 100| ≤ 4

theorem weight_pos (c : RiskCategory) : 0 < CATEGORY_WEIGHT c := by
  cases c <;> norm_num [CATEGORY_WEIGHT]

theorem pickScore_nonneg (p : RiskCategory × List String) : 0 ≤ pickScore p :=
  mul_nonneg (Nat.cast_nonneg _) (le_of_lt (weight_pos _))

/-- Behaviour of a best-so-far fold: either no entry beats the initial score
and the state is unchanged, or the result is the first entry of maximal score
among those beating the initial score. -/
theorem foldl_sel_spec (l : List (RiskCategory × ℚ)) (b : RiskCategory) (s : ℚ) :
    (l.foldl selStep (b, s) = (b, s) ∧ ∀ q ∈ l, q.2 ≤ s)
    ∨ ∃ i : Fin l.length,
        l.foldl selStep (b, s) = l.get i
        ∧ s < (l.get i).2
        ∧ (∀ j : Fin l.length, (l.get j).2 ≤ (l.get i).2)
        ∧ (∀ j : Fin l.length, (j : ℕ) < (i : ℕ) → (l.get j).2 < (l.get i).2) := by
  induction l generalizing b s with
  | nil => exact Or.inl ⟨rfl, by simp⟩
  | cons p t ih =>
    have hcons : List.foldl selStep (b, s) (p :: t) = List.foldl selStep (selStep (b, s) p) t := rfl
    by_cases h : s < p.2
    · have hsel : selStep (b, s) p = p := by simp [selStep, h]
      rcases ih p.1 p.2 with ⟨heq, hall⟩ | ⟨i, heq, hlt, hmax, hfirst⟩
      · right
        refine ⟨⟨0, Nat.succ_pos _⟩, ?_, h, ?_, ?_⟩
        · rw [hcons, hsel]; exact heq
        · rintro ⟨j, hj⟩
          cases j with
          | zero => exact le_refl _
          | succ j =>
            exact hall _ (List.get_mem t j (Nat.lt_of_succ_lt_succ hj))
        · rintro ⟨j, hj⟩ hj0
          exact absurd hj0 (Nat.not_lt_zero j)
      · right
        have hi1 : (i : ℕ) + 1 < (p :: t).length := Nat.succ_lt_succ i.isLt
        refine ⟨⟨(i : ℕ) + 1, hi1⟩, ?_, lt_trans h hlt, ?_, ?_⟩
        · rw [hcons, hsel]; exact heq
        · rintro ⟨j, hj⟩
          cases j with
          | zero => exact le_of_lt hlt
          | succ j => exact hmax ⟨j, Nat.lt_of_succ_lt_succ hj⟩
        · rintro ⟨j, hj⟩ hlt2
          cases j with
          | zero => exact hlt
          | succ j => exact hfirst ⟨j, Nat.lt_of_succ_lt_succ hj⟩ (Nat.lt_of_succ_lt_succ hlt2)
    · have hsel : selStep (b, s) p = (b, s) := by simp [selStep, h]
      rcases ih b s with ⟨heq, hall⟩ | ⟨i, heq, hlt, hmax, hfirst⟩
      · left
        refine ⟨by rw [hcons, hsel]; exact heq, ?_⟩
        intro q hq
        rcases List.mem_cons.mp hq with rfl | hq2
        · exact not_lt.mp h
        · exact hall q hq2
      · right
        have hle : p.2 ≤ s := not_lt.mp h
        have hi1 : (i : ℕ) + 1 < (p :: t).length := Nat.succ_lt_succ i.isLt
        refine ⟨⟨(i : ℕ) + 1, hi1⟩, ?_, hlt, ?_, ?_⟩
        · rw [hcons, hsel]; exact heq
        · rintro ⟨j, hj⟩
          cases j with
          | zero => exact le_of_lt (lt_of_le_of_lt hle hlt)
          | succ j => exact hmax ⟨j, Nat.lt_of_succ_lt_succ hj⟩
        · rintro ⟨j, hj⟩ hlt2
          cases j with
          | zero => exact lt_of_le_of_lt hle hlt
          | succ j => exact hfirst ⟨j, Nat.lt_of_succ_lt_succ hj⟩ (Nat.lt_of_succ_lt_succ hlt2)

/-- A best-so-far fold over a non-empty list of non-negative scores, started
at score `-1`, returns the first entry of maximal score. -/
theorem selFold_argmax (L : List (RiskCategory × ℚ)) (hne : L ≠ [])
    (hnn : ∀ q ∈ L, 0 ≤ q.2) :
    ∃ i : Fin L.length,
      (L.foldl selStep (General, -1)).1 = (L.get i).1
      ∧ (∀ j : Fin L.length, (L.get j).2 ≤ (L.get i).2)
      ∧ (∀ j : Fin L.length, (j : ℕ) < (i : ℕ) → (L.get j).2 < (L.get i).2) := by
  rcases foldl_sel_spec L General (-1) with ⟨_, hall⟩ | ⟨i, heq, _, hmax, hfirst⟩
  · cases L with
    | nil => exact absurd rfl hne
    | cons p t =>
      have h1 := hall p (List.mem_cons_self p t)
      have h2 := hnn p (List.mem_cons_self p t)
      linarith
  · exact ⟨i, by rw [heq], hmax, hfirst⟩

theorem pickCategory_eq_selFold (ms : List (RiskCategory × List String)) :
    pickCategory ms = ((ms.map fun p => (p.1, pickScore p)).foldl selStep (General, -1)).1 := by
  unfold pickCategory
  rw [List.foldl_map]
  rfl

/-- The category picked for a non-empty match mapping is the first entry
attaining the maximal score. -/
theorem pickCategory_argmax (ms : List (RiskCategory × List String)) (hne : ms ≠ []) :
    ∃ i : Fin ms.length,
      pickCategory ms = (ms.get i).1
      ∧ (∀ j : Fin ms.length, pickScore (ms.get j) ≤ pickScore (ms.get i))
      ∧ (∀ j : Fin ms.length, (j : ℕ) < (i : ℕ) → pickScore (ms.get j) < pickScore (ms.get i)) := by
  have hmapne : (ms.map fun p => (p.1, pickScore p)) ≠ [] := by
    simpa using hne
  have hnn : ∀ q ∈ ms.map (fun p => (p.1, pickScore p)), 0 ≤ q.2 := by
    intro q hq
    rcases List.mem_map.mp hq with ⟨p, _, rfl⟩
    exact pickScore_nonneg p
  obtain ⟨i, h1, h2, h3⟩ := selFold_argmax _ hmapne hnn
  have hlen : (ms.map fun p => (p.1, pickScore p)).length = ms.length := List.length_map _ _
  refine ⟨⟨(i : ℕ), hlen ▸ i.isLt⟩, ?_, ?_, ?_⟩
  · rw [pickCategory_eq_selFold, h1, List.get_map]
  · intro j
    have hj2 : ((j : ℕ) : ℕ) < (ms.map fun p => (p.1, pickScore p)).length := by
      rw [hlen]; exact j.isLt
    have := h2 ⟨(j : ℕ), hj2⟩
    simpa [List.get_map] using this
  · intro j hji
    have hj2 : ((j : ℕ) : ℕ) < (ms.map fun p => (p.1, pickScore p)).length := by
      rw [hlen]; exact j.isLt
    have := h3 ⟨(j : ℕ), hj2⟩ hji
    simpa [List.get_map] using this

theorem dominantOf_eq_selFold (classified : List ClassifiedArticle) :
    dominantOf classified
      = ((categoryOrder.map fun c => (c, dominantScore classified c)).foldl
          selStep (General, -1)).1 := by
  unfold dominantOf
  rw [List.foldl_map]
  rfl

/-- The dominant category is the first category in enumeration order whose
count-times-weight score is maximal. -/
theorem dominantOf_argmax (classified : List ClassifiedArticle) :
    ∃ i : Fin categoryOrder.length,
      dominantOf classified = categoryOrder.get i
      ∧ (∀ j : Fin categoryOrder.length,
          dominantScore classified (categoryOrder.get j)
            ≤ dominantScore classified (categoryOrder.get i))
      ∧ (∀ j : Fin categoryOrder.length, (j : ℕ) < (i : ℕ) →
          dominantScore classified (categoryOrder.get j)
            < dominantScore classified (categoryOrder.get i)) := by
  have hmapne : (categoryOrder.map fun c => (c, dominantScore classified c)) ≠ [] := by
    simp [categoryOrder]
  have hnn : ∀ q ∈ categoryOrder.map (fun c => (c, dominantScore classified c)), 0 ≤ q.2 := by
    intro q hq
    rcases List.mem_map.mp hq with ⟨c, _, rfl⟩
    exact mul_nonneg (Nat.cast_nonneg _) (le_of_lt (weight_pos _))
  obtain ⟨i, h1, h2, h3⟩ := selFold_argmax _ hmapne hnn
  have hlen : (categoryOrder.map fun c => (c, dominantScore classified c)).length
      = categoryOrder.length := List.length_map _ _
  refine ⟨⟨(i : ℕ), by rw [← hlen]; exact i.isLt⟩, ?_, ?_, ?_⟩
  · rw [dominantOf_eq_selFold, h1, List.get_map]
  · intro j
    have hj2 : ((j : ℕ) : ℕ) < (categoryOrder.map fun c => (c, dominantScore classified c)).length := by
      rw [hlen]; exact j.isLt
    have := h2 ⟨(j : ℕ), hj2⟩
    simpa [List.get_map] using this
  · intro j hji
    have hj2 : ((j : ℕ) : ℕ) < (categoryOrder.map fun c => (c, dominantScore classified c)).length := by
      rw [hlen]; exact j.isLt
    have := h3 ⟨(j : ℕ), hj2⟩ hji
    simpa [List.get_map] using this

/-- When every per-category count is zero, the dominant-category loop keeps
the very first category, Geopolitical. -/
theorem dominantOf_all_zero (classified : List ClassifiedArticle)
    (h : ∀ c, countCat classified c = 0) :
    dominantOf classified = Geopolitical := by
  obtain ⟨⟨i, hi⟩, h1, _, h3⟩ := dominantOf_argmax classified
  have hz : ∀ c, dominantScore classified c = 0 := by
    intro c
    simp [dominantScore, h c]
  match i, hi with
  | 0, _ => rw [h1]; rfl
  | n + 1, hi =>
    have h0 : (0 : ℕ) < categoryOrder.length := by simp [categoryOrder]
    have := h3 ⟨0, h0⟩ (Nat.succ_pos n)
    rw [hz, hz] at this
    exact absurd this (lt_irrefl 0)

theorem mem_categoryOrder (c : RiskCategory) : c ∈ categoryOrder := by
  cases c <;> simp [categoryOrder]

/-- Membership characterization of the keyword-match mapping: an entry for
category `c` is present exactly when the matched-keyword list for `c` is
non-empty, and then it carries exactly that list. -/
theorem mem_matchKeywords (t : String) (c : RiskCategory) (ws : List String) :
    (c, ws) ∈ matchKeywords t
      ↔ ws = (KEYWORDS c).filter (fun w => includes (lc t) w) ∧ ws ≠ [] := by
  unfold matchKeywords
  simp only [List.mem_filterMap]
  constructor
  · rintro ⟨cat, _, hf⟩
    by_cases he : ((KEYWORDS cat).filter fun w => includes (lc t) w).isEmpty
    · simp [he] at hf
    · simp only [he, if_false, Option.some.injEq, Prod.mk.injEq] at hf
      obtain ⟨rfl, rfl⟩ := hf
      exact ⟨rfl, by simpa [List.isEmpty_iff] using he⟩
  · rintro ⟨rfl, hne⟩
    refine ⟨c, mem_categoryOrder c, ?_⟩
    have he : ((KEYWORDS c).filter fun w => includes (lc t) w).isEmpty = false := by
      simpa [List.isEmpty_iff] using hne
    simp [he]

/-- The General category, whose keyword list is empty, never appears in the
match mapping. -/
theorem matchKeywords_no_general (t : String) (ws : List String) :
    (General, ws) ∉ matchKeywords t := by
  intro h
  obtain ⟨hw, hne⟩ := (mem_matchKeywords t General ws).mp h
  exact hne (by simpa [KEYWORDS] using hw)

/-- The picked category is General exactly when no keyword matched. -/
theorem pick_matchKeywords_general_iff (t : String) :
    pickCategory (matchKeywords t) = General ↔ matchKeywords t = [] := by
  constructor
  · intro h
    by_contra hne
    obtain ⟨i, h1, _, _⟩ := pickCategory_argmax (matchKeywords t) hne
    have hmem : (matchKeywords t).get i ∈ matchKeywords t := List.get_mem _ _ _
    have hpair : (((matchKeywords t).get i).1, ((matchKeywords t).get i).2) ∈ matchKeywords t := hmem
    rw [h] at h1
    rw [← h1] at hpair
    exact matchKeywords_no_general t _ hpair
  · intro h
    rw [h]
    rfl

theorem clamp_bounds (v : ℤ) : 0 ≤ clamp v 0 100 ∧ clamp v 0 100 ≤ 100 := by
  unfold clamp
  omega

theorem scoreArticle_bounds (c : RiskCategory) (t : String) :
    0 ≤ scoreArticle c t ∧ scoreArticle c t ≤ 100 := by
  unfold scoreArticle
  exact clamp_bounds _

theorem overallScoreOf_bounds (classified : List ClassifiedArticle) :
    0 ≤ overallScoreOf classified ∧ overallScoreOf classified ≤ 100 := by
  have h : overallScoreOf classified
      = if 0 < (weightTotals classified).2
        then clamp (jsRound ((weightTotals classified).1 / (weightTotals classified).2)) 0 100
        else 0 := rfl
  rw [h]
  split
  · exact clamp_bounds _
  · exact ⟨le_refl 0, by norm_num⟩

/-- Every classified article falls in exactly one of the five categories, so
the per-category counts sum to the list length. -/
theorem sum_countCat (l : List ClassifiedArticle) :
    countCat l Geopolitical + countCat l Monetary + countCat l Commodity
      + countCat l SupplyChain + countCat l General = l.length := by
  induction l with
  | nil => rfl
  | cons a t ih =>
    unfold countCat at ih ⊢
    simp only [List.countP_cons, List.length_cons]
    cases h : a.riskCategory <;> simp [h] <;> omega

theorem jsRound_intCast (n : ℤ) : jsRound (n : ℚ) = n := by
  unfold jsRound
  rw [Int.floor_eq_iff]
  constructor
  · linarith
  · linarith

theorem jsRound_le (x : ℚ) : (jsRound x : ℚ) ≤ x + 1/2 := Int.floor_le _

theorem lt_jsRound (x : ℚ) : x - 1/2 < (jsRound x : ℚ) := by
  have h := Int.lt_floor_add_one (x + 1/2)
  unfold jsRound
  linarith

/-- Rounding five exact percentages that sum to 100 keeps the rounded sum
within 4 of 100. -/
theorem breakdown_sum_bound (c1 c2 c3 c4 c5 n : ℕ) (hn : 0 < n)
    (hsum : c1 + c2 + c3 + c4 + c5 = n) :
    |jsRound ((c1 : ℚ) / (n : ℚ) * 100) + jsRound ((c2 : ℚ) / (n : ℚ) * 100)
      + jsRound ((c3 : ℚ) / (n : ℚ) * 100) + jsRound ((c4 : ℚ) / (n : ℚ) * 100)
      + jsRound ((c5 : ℚ) / (n : ℚ) * 100) - 100| ≤ 4 := by
  have hn0 : (n : ℚ) ≠ 0 := Nat.cast_ne_zero.mpr hn.ne'
  have hq : (c1 : ℚ) + (c2 : ℚ) + (c3 : ℚ) + (c4 : ℚ) + (c5 : ℚ) = (n : ℚ) := by
    exact_mod_cast hsum
  have hsx : (c1 : ℚ) / (n : ℚ) * 100 + (c2 : ℚ) / (n : ℚ) * 100
      + (c3 : ℚ) / (n : ℚ) * 100 + (c4 : ℚ) / (n : ℚ) * 100
      + (c5 : ℚ) / (n : ℚ) * 100 = 100 := by
    field_simp
    linarith
  set P : ℤ := jsRound ((c1 : ℚ) / (n : ℚ) * 100) + jsRound ((c2 : ℚ) / (n : ℚ) * 100)
      + jsRound ((c3 : ℚ) / (n : ℚ) * 100) + jsRound ((c4 : ℚ) / (n : ℚ) * 100)
      + jsRound ((c5 : ℚ) / (n : ℚ) * 100) with hP
  have hub : (P : ℚ) ≤ 100 + 5/2 := by
    have u1 := jsRound_le ((c1 : ℚ) / (n : ℚ) * 100)
    have u2 := jsRound_le ((c2 : ℚ) / (n : ℚ) * 100)
    have u3 := jsRound_le ((c3 : ℚ) / (n : ℚ) * 100)
    have u4 := jsRound_le ((c4 : ℚ) / (n : ℚ) * 100)
    have u5 := jsRound_le ((c5 : ℚ) / (n : ℚ) * 100)
    rw [hP]
    push_cast
    linarith
  have hlb : 100 - 5/2 < (P : ℚ) := by
    have u1 := lt_jsRound ((c1 : ℚ) / (n : ℚ) * 100)
    have u2 := lt_jsRound ((c2 : ℚ) / (n : ℚ) * 100)
    have u3 := lt_jsRound ((c3 : ℚ) / (n : ℚ) * 100)
    have u4 := lt_jsRound ((c4 : ℚ) / (n : ℚ) * 100)
    have u5 := lt_jsRound ((c5 : ℚ) / (n : ℚ) * 100)
    rw [hP]
    push_cast
    linarith
  have h1 : P ≤ 102 := by
    by_contra hcon
    push_neg at hcon
    have : (103 : ℚ) ≤ (P : ℚ) := by exact_mod_cast hcon
    linarith
  have h2 : 98 ≤ P := by
    by_contra hcon
    push_neg at hcon
    have h97 : P ≤ 97 := by omega
    have : (P : ℚ) ≤ 97 := by exact_mod_cast h97
    linarith
  rw [abs_le]
  omega

theorem totalOf_of_ne_nil (classified : List ClassifiedArticle) (h : classified.length ≠ 0) :
    totalOf classified = classified.length := by
  unfold totalOf
  rw [if_neg h]

/-- C1 (amended): the batch-level dominant category returned by
`classifyArticles` is computed as: for each of the 5 categories,
score = count(category) × baseWeight(category); the category with the
strictly greatest score wins, ties resolving to the first category in
enumeration order; and when every count is zero (in particular for an empty
input list) the dominantCategory is Geopolitical, the first category in
enumeration order (not General as the spec states). -/
theorem dominantCategory_spec :
    ∀ raws : List RawArticle,
      (∃ i : Fin categoryOrder.length,
        (classifyArticles raws).dominantCategory = categoryOrder.get i
        ∧ (∀ j : Fin categoryOrder.length,
            dominantScore (raws.map classifyOne) (categoryOrder.get j)
              ≤ dominantScore (raws.map classifyOne) (categoryOrder.get i))
        ∧ (∀ j : Fin categoryOrder.length, (j : ℕ) < (i : ℕ) →
            dominantScore (raws.map classifyOne) (categoryOrder.get j)
              < dominantScore (raws.map classifyOne) (categoryOrder.get i)))
      ∧ ((∀ c, countCat (raws.map classifyOne) c = 0) →
          (classifyArticles raws).dominantCategory = RiskCategory.Geopolitical) := by
  intro raws
  constructor
  · exact dominantOf_argmax (raws.map classifyOne)
  · intro h
    exact dominantOf_all_zero (raws.map classifyOne) h

/-- C1 counterexample: on the empty input list every count is zero, yet the
dominant category is Geopolitical, not General as the claim states. -/
theorem dominantCategory_empty_counterexample :
    (classifyArticles []).dominantCategory = RiskCategory.Geopolitical
    ∧ (classifyArticles []).dominantCategory ≠ RiskCategory.General := by
  have h : (classifyArticles []).dominantCategory = RiskCategory.Geopolitical :=
    dominantOf_all_zero [] (fun _ => rfl)
  refine ⟨h, ?_⟩
  rw [h]
  decide

/-- C1 witness: the amended all-zero-counts case at the concrete empty list. -/
theorem dominantCategory_spec_witness :
    (classifyArticles []).dominantCategory = RiskCategory.Geopolitical :=
  (dominantCategory_spec []).2 (fun _ => rfl)

/-- C2: for the empty input list, `classifyArticles` returns overallScore 0,
impact level LOW and an all-zero category breakdown, the division-by-zero
cases being short-circuited by the safe defaults in the code, never raised. -/
theorem classifyArticles_empty_safe :
    (classifyArticles []).overallScore = 0
    ∧ (classifyArticles []).impactLevel = ImpactLevel.LOW
    ∧ (classifyArticles []).categoryBreakdown
        = { Geopolitical := 0, Monetary := 0, Commodity := 0, SupplyChain := 0, General := 0 } := by
  have h0 : overallScoreOf [] = 0 := by
    show (if 0 < (weightTotals []).2
        then clamp (jsRound ((weightTotals []).1 / (weightTotals []).2)) 0 100 else 0) = 0
    norm_num [weightTotals]
  have hjc : ∀ c : RiskCategory,
      jsRound ((countCat ([] : List ClassifiedArticle) c : ℚ) / (totalOf [] : ℚ) * 100) = 0 := by
    intro c
    have h : ((countCat ([] : List ClassifiedArticle) c : ℚ) / (totalOf [] : ℚ) * 100)
        = ((0 : ℤ) : ℚ) := by
      norm_num [countCat, totalOf]
    rw [h, jsRound_intCast]
  refine ⟨h0, ?_, ?_⟩
  · show toImpactLevel (overallScoreOf []) = ImpactLevel.LOW
    rw [h0]
    decide
  · show breakdownOf [] = _
    simp only [breakdownOf]
    rw [hjc, hjc, hjc, hjc, hjc]

/-- C3 (amended): every article's score is
clamp(round(baseWeight(category) × 60 + severityBoost(text)), 0, 100); and an
article whose text matches no keyword in any category AND no severity-tier
keyword (so that the boost is the baseline +5) is classified General with
articleScore = round(0.30 × 60 + 5) = 23.  (The original claim omitted the
severity condition; a text such as "crash" matches no category keyword but
still earns a tier boost.) -/
theorem scoreArticle_formula :
    (∀ a : RawArticle,
        (classifyOne a).articleScore
          = clamp (jsRound (CATEGORY_WEIGHT (classifyOne a).riskCategory * 60
              + severityBoost (combinedText a))) 0 100)
    ∧ (∀ a : RawArticle, matchKeywords (combinedText a) = [] →
        severityBoost (combinedText a) = BASELINE_BOOST →
        (classifyOne a).riskCategory = RiskCategory.General
          ∧ (classifyOne a).articleScore = 23) := by
  constructor
  · intro a
    rfl
  · intro a hm hb
    have hc : (classifyOne a).riskCategory = RiskCategory.General := by
      show pickCategory (matchKeywords (combinedText a)) = RiskCategory.General
      rw [hm]
      rfl
    refine ⟨hc, ?_⟩
    show scoreArticle (pickCategory (matchKeywords (combinedText a))) (combinedText a) = 23
    rw [hm]
    show clamp (jsRound (CATEGORY_WEIGHT RiskCategory.General * 60
        + severityBoost (combinedText a))) 0 100 = 23
    rw [hb]
    have h : CATEGORY_WEIGHT RiskCategory.General * 60 + BASELINE_BOOST = ((23 : ℤ) : ℚ) := by
      norm_num [CATEGORY_WEIGHT, BASELINE_BOOST]
    rw [h, jsRound_intCast]
    decide

/-- C3 counterexample: the article "crash" matches no keyword in any
category, yet its severity boost is 40 (tier 1), so its score is 58, not 23
as the claim as stated would require. -/
theorem scoreArticle_no_keyword_counterexample :
    matchKeywords (combinedText crashArticle) = []
    ∧ (classifyOne crashArticle).riskCategory = RiskCategory.General
    ∧ (classifyOne crashArticle).articleScore = 58
    ∧ (classifyOne crashArticle).articleScore ≠ 23 := by
  have hm : matchKeywords (combinedText crashArticle) = [] := by decide
  have hb : severityBoost (combinedText crashArticle) = 40 := rfl
  have hc : (classifyOne crashArticle).riskCategory = RiskCategory.General := by
    show pickCategory (matchKeywords (combinedText crashArticle)) = RiskCategory.General
    rw [hm]
    rfl
  have hs : (classifyOne crashArticle).articleScore = 58 := by
    show scoreArticle (pickCategory (matchKeywords (combinedText crashArticle)))
        (combinedText crashArticle) = 58
    rw [hm]
    show clamp (jsRound (CATEGORY_WEIGHT RiskCategory.General * 60
        + severityBoost (combinedText crashArticle))) 0 100 = 58
    rw [hb]
    have h : CATEGORY_WEIGHT RiskCategory.General * 60 + 40 = ((58 : ℤ) : ℚ) := by
      norm_num [CATEGORY_WEIGHT]
    rw [h, jsRound_intCast]
    decide
  refine ⟨hm, hc, hs, ?_⟩
  rw [hs]
  decide

/-- C3 witness: the amended no-keyword no-severity case at a concrete
article. -/
theorem scoreArticle_formula_witness :
    (classifyOne blandArticle).riskCategory = RiskCategory.General
    ∧ (classifyOne blandArticle).articleScore = 23 :=
  scoreArticle_formula.2 blandArticle (by decide) rfl

/-- C4: the severity boost is the boost of the first tier, in the fixed
priority order 40, 25, 12, whose keyword list matches the lower-cased text;
the baseline +5 when no tier matches; and exactly one tier's boost is ever
applied — the result is always one of 40, 25, 12, 5, never a sum. -/
theorem severityBoost_spec : ∀ t : String,
    (severityBoost t =
      if tier1.words.any (fun w => includes (lc t) w) then tier1.boost
      else if tier2.words.any (fun w => includes (lc t) w) then tier2.boost
      else if tier3.words.any (fun w => includes (lc t) w) then tier3.boost
      else BASELINE_BOOST)
    ∧ (severityBoost t = 40 ∨ severityBoost t = 25 ∨ severityBoost t = 12
        ∨ severityBoost t = 5) := by
  intro t
  have h : severityBoost t =
      if tier1.words.any (fun w => includes (lc t) w) then tier1.boost
      else if tier2.words.any (fun w => includes (lc t) w) then tier2.boost
      else if tier3.words.any (fun w => includes (lc t) w) then tier3.boost
      else BASELINE_BOOST := by
    unfold severityBoost SEVERITY_TIERS
    cases h1 : tier1.words.any (fun w => includes (lc t) w) <;>
      cases h2 : tier2.words.any (fun w => includes (lc t) w) <;>
        cases h3 : tier3.words.any (fun w => includes (lc t) w) <;>
          simp [List.find?, h1, h2, h3]
  refine ⟨h, ?_⟩
  rw [h]
  split_ifs <;> norm_num [tier1, tier2, tier3, BASELINE_BOOST]

/-- C5: `pickCategory` computes score = matchCount × baseWeight for each
entry of the mapping and returns the first category attaining the strictly
greatest score; on the empty mapping it returns General. -/
theorem pickCategory_spec :
    pickCategory [] = RiskCategory.General
    ∧ ∀ ms : List (RiskCategory × List String), ms ≠ [] →
        ∃ i : Fin ms.length,
          pickCategory ms = (ms.get i).1
          ∧ (∀ j : Fin ms.length, pickScore (ms.get j) ≤ pickScore (ms.get i))
          ∧ (∀ j : Fin ms.length, (j : ℕ) < (i : ℕ) →
              pickScore (ms.get j) < pickScore (ms.get i)) :=
  ⟨rfl, pickCategory_argmax⟩

/-- C5 witness: the argmax characterization at a concrete one-entry
mapping. -/
theorem pickCategory_spec_witness :
    ∃ i : Fin singleMatch.length,
      pickCategory singleMatch = (singleMatch.get i).1
      ∧ (∀ j : Fin singleMatch.length, pickScore (singleMatch.get j) ≤ pickScore (singleMatch.get i))
      ∧ (∀ j : Fin singleMatch.length, (j : ℕ) < (i : ℕ) →
          pickScore (singleMatch.get j) < pickScore (singleMatch.get i)) :=
  pickCategory_spec.2 singleMatch (by simp [singleMatch])

/-- C6: `toImpactLevel` maps scores through fixed inclusive bands:
score ≤ 30 is LOW, 31–70 is MEDIUM, 71–100 is HIGH; in particular 30 is LOW,
31 and 70 are MEDIUM, 71 is HIGH. -/
theorem toImpactLevel_bands : ∀ s : ℤ,
    (s ≤ 30 → toImpactLevel s = ImpactLevel.LOW)
    ∧ (31 ≤ s → s ≤ 70 → toImpactLevel s = ImpactLevel.MEDIUM)
    ∧ (71 ≤ s → s ≤ 100 → toImpactLevel s = ImpactLevel.HIGH)
    ∧ toImpactLevel 30 = ImpactLevel.LOW ∧ toImpactLevel 31 = ImpactLevel.MEDIUM
    ∧ toImpactLevel 70 = ImpactLevel.MEDIUM ∧ toImpactLevel 71 = ImpactLevel.HIGH := by
  intro s
  refine ⟨?_, ?_, ?_, by decide, by decide, by decide, by decide⟩
  · intro h
    unfold toImpactLevel
    rw [if_pos h]
  · intro h1 h2
    unfold toImpactLevel
    rw [if_neg (by omega), if_pos h2]
  · intro h1 _
    unfold toImpactLevel
    rw [if_neg (by omega), if_neg (by omega)]

/-- C6 witness: the MEDIUM band applied at the concrete score 45. -/
theorem toImpactLevel_bands_witness : toImpactLevel 45 = ImpactLevel.MEDIUM :=
  (toImpactLevel_bands 45).2.1 (by decide) (by decide)

/-- C7: each categoryBreakdown percentage equals
round(count(category) / totalArticles × 100), computed from per-category
article counts, and for every non-empty input the five percentages sum to
100 within a rounding drift of at most 4. -/
theorem categoryBreakdown_spec :
    ∀ raws : List RawArticle, raws ≠ [] → breakdownClaimAt raws := by
  intro raws hne
  have hb : (classifyArticles raws).categoryBreakdown = breakdownOf (raws.map classifyOne) := rfl
  have harts : (classifyArticles raws).articles = raws.map classifyOne := rfl
  have hlen : (raws.map classifyOne).length = raws.length := List.length_map _ _
  have hpos : 0 < raws.length := List.length_pos.mpr hne
  have hlen0 : (raws.map classifyOne).length ≠ 0 := by rw [hlen]; exact hpos.ne'
  have htot : (totalOf (raws.map classifyOne) : ℚ) = (raws.length : ℚ) := by
    rw [totalOf_of_ne_nil _ hlen0, hlen]
  have hG : (breakdownOf (raws.map classifyOne)).Geopolitical
      = jsRound ((countCat (raws.map classifyOne) Geopolitical : ℚ) / (raws.length : ℚ) * 100) := by
    show jsRound ((countCat (raws.map classifyOne) Geopolitical : ℚ)
        / (totalOf (raws.map classifyOne) : ℚ) * 100) = _
    rw [htot]
  have hM : (breakdownOf (raws.map classifyOne)).Monetary
      = jsRound ((countCat (raws.map classifyOne) Monetary : ℚ) / (raws.length : ℚ) * 100) := by
    show jsRound ((countCat (raws.map classifyOne) Monetary : ℚ)
        / (totalOf (raws.map classifyOne) : ℚ) * 100) = _
    rw [htot]
  have hC : (breakdownOf (raws.map classifyOne)).Commodity
      = jsRound ((countCat (raws.map classifyOne) Commodity : ℚ) / (raws.length : ℚ) * 100) := by
    show jsRound ((countCat (raws.map classifyOne) Commodity : ℚ)
        / (totalOf (raws.map classifyOne) : ℚ) * 100) = _
    rw [htot]
  have hS : (breakdownOf (raws.map classifyOne)).SupplyChain
      = jsRound ((countCat (raws.map classifyOne) SupplyChain : ℚ) / (raws.length : ℚ) * 100) := by
    show jsRound ((countCat (raws.map classifyOne) SupplyChain : ℚ)
        / (totalOf (raws.map classifyOne) : ℚ) * 100) = _
    rw [htot]
  have hGen : (breakdownOf (raws.map classifyOne)).General
      = jsRound ((countCat (raws.map classifyOne) General : ℚ) / (raws.length : ℚ) * 100) := by
    show jsRound ((countCat (raws.map classifyOne) General : ℚ)
        / (totalOf (raws.map classifyOne) : ℚ) * 100) = _
    rw [htot]
  have hsum := sum_countCat (raws.map classifyOne)
  rw [hlen] at hsum
  have hbound := breakdown_sum_bound (countCat (raws.map classifyOne) Geopolitical)
      (countCat (raws.map classifyOne) Monetary) (countCat (raws.map classifyOne) Commodity)
      (countCat (raws.map classifyOne) SupplyChain) (countCat (raws.map classifyOne) General)
      raws.length hpos hsum
  unfold breakdownClaimAt
  rw [hb, harts]
  refine ⟨hG, hM, hC, hS, hGen, ?_⟩
  unfold breakdownSum
  rw [hG, hM, hC, hS, hGen]
  exact hbound

/-- C7 witness: the breakdown property at a concrete one-article list. -/
theorem categoryBreakdown_spec_witness : breakdownClaimAt [blandArticle] :=
  categoryBreakdown_spec [blandArticle] (by simp)

/-- C8: applied to the combined text title + " " + description (empty string
for a missing description), the keyword matcher returns for each category the
ordered list of its dictionary keywords occurring as case-insensitive
substrings of the lower-cased text, omitting categories with zero matches;
General, whose keyword list is empty, never appears. -/
theorem matchKeywords_spec :
    (∀ (t : String) (c : RiskCategory) (ws : List String),
        ((c, ws) ∈ matchKeywords t
          ↔ ws = (KEYWORDS c).filter (fun w => includes (lc t) w) ∧ ws ≠ []))
    ∧ (∀ (t : String) (ws : List String), (RiskCategory.General, ws) ∉ matchKeywords t)
    ∧ (∀ a : RawArticle,
        (classifyOne a).keywordMatches = matchKeywords (a.title ++ " " ++ a.description.getD ""))
    ∧ (∀ raws : List RawArticle, (classifyArticles raws).articles = raws.map classifyOne) :=
  ⟨mem_matchKeywords, matchKeywords_no_general, fun _ => rfl, fun _ => rfl⟩

/-- C8 witness: the membership characterization instantiated at the concrete
text "War", whose lower-casing matches the Geopolitical keyword "war". -/
theorem matchKeywords_spec_witness :
    (RiskCategory.Geopolitical, ["war"]) ∈ matchKeywords "War" :=
  (matchKeywords_spec.1 "War" RiskCategory.Geopolitical ["war"]).mpr ⟨by decide, by simp⟩

/-- C9: for every input list, the overall score lies in [0, 100] and every
classified article's score lies in [0, 100]. -/
theorem scores_bounded : ∀ raws : List RawArticle,
    (0 ≤ (classifyArticles raws).overallScore ∧ (classifyArticles raws).overallScore ≤ 100)
    ∧ ∀ a ∈ (classifyArticles raws).articles, 0 ≤ a.articleScore ∧ a.articleScore ≤ 100 := by
  intro raws
  refine ⟨overallScoreOf_bounds (raws.map classifyOne), ?_⟩
  intro a ha
  have harts : (classifyArticles raws).articles = raws.map classifyOne := rfl
  rw [harts] at ha
  obtain ⟨x, _, rfl⟩ := List.mem_map.mp ha
  exact scoreArticle_bounds _ _

/-- C9 witness: the per-article bound at a concrete classified article. -/
theorem scores_bounded_witness :
    0 ≤ (classifyOne crashArticle).articleScore
    ∧ (classifyOne crashArticle).articleScore ≤ 100 :=
  (scores_bounded [crashArticle]).2 (classifyOne crashArticle)
    (by exact List.mem_singleton_self _)

/-- C10: in every classified article produced by `classifyArticles`, the risk
category is General exactly when the keyword-match mapping is empty. -/
theorem riskCategory_general_iff :
    ∀ raws : List RawArticle, ∀ a ∈ (classifyArticles raws).articles,
      (a.riskCategory = RiskCategory.General ↔ a.keywordMatches = []) := by
  intro raws a ha
  have harts : (classifyArticles raws).articles = raws.map classifyOne := rfl
  rw [harts] at ha
  obtain ⟨x, _, rfl⟩ := List.mem_map.mp ha
  exact pick_matchKeywords_general_iff (combinedText x)

/-- C10 witness: the equivalence at a concrete article containing the
keyword "war". -/
theorem riskCategory_general_iff_witness :
    (classifyOne warArticle).riskCategory = RiskCategory.General
      ↔ (classifyOne warArticle).keywordMatches = [] :=
  riskCategory_general_iff [warArticle] (classifyOne warArticle)
    (by exact List.mem_singleton_self _)

end Classifier
